import Mathlib

/-!
Shallow embedding of `src/tourist_website.py` (the `load_data` CSV
loader/normalizer and the filter logic of `main`).

Conventions of the embedding:
* A parsed CSV is a `RawTable`: the list of header strings and the rows,
  each row a list of cells.  A cell is `Option String`; `none` models a
  missing value (pandas `NaN`, which is what `read_csv` produces for an
  empty field).
* A normalized table is a `Table` whose cells are `Option Cell`, where a
  `Cell` is either a string or an exact decimal number (the result of
  `pd.to_numeric`).
* `load_data`'s failure path (`st.error` + `return None` when required
  columns are missing) is modelled as a structured `Except` error carrying
  exactly the data interpolated into the error message: the list of
  missing canonical columns and the value of `df.columns` at that point.
* Python line 141 of the source (`mask = (...) |`) lacks a line
  continuation and is a syntax error as committed; the embedding uses the
  unambiguous intended parse (the disjunction of the three masks).
-/

namespace Tourist

/-- An exact decimal number `num / 10 ^ exp`, kept in canonical form
(`num` not divisible by 10 unless `exp = 0`), used to model the numeric
values produced by `pd.to_numeric`.  The loader performs no arithmetic on
coordinates, so an exact decimal representation is faithful. -/
structure DecNum where
  num : Int
  exp : Nat
deriving DecidableEq, Repr

/-- A cell value of the normalized table: either a raw string or a number
produced by `pd.to_numeric`. -/
inductive Cell where
  | str : String → Cell
  | num : DecNum → Cell
deriving DecidableEq, Repr

/-- A row of the normalized table; `none` is pandas `NaN`. -/
abbrev Row := List (Option Cell)

/-- The result of parsing the CSV file: original headers and raw rows
(`none` models an empty field, which `read_csv` reads as `NaN`). -/
structure RawTable where
  headers : List String
  rows : List (List (Option String))
deriving DecidableEq, Repr

/-- The normalized table returned by `load_data`. -/
structure Table where
  headers : List String
  rows : List Row
deriving DecidableEq, Repr

/-- The structured failure of `load_data` when required columns are
missing: the missing canonical names and the available columns reported
in the error message. -/
inductive LoadError where
  | MissingColumns : (missing : List String) → (available : List String) → LoadError
deriving DecidableEq, Repr

/-- Drop leading and trailing whitespace from a character list
(Python `str.strip()`). -/
def trimChars (cs : List Char) : List Char :=
  ((cs.dropWhile Char.isWhitespace).reverse.dropWhile Char.isWhitespace).reverse

/-- Header normalization, line 57 of the source:
`str(c).strip().lower().replace(' ', '_')`. -/
def slugify (c : String) : String :=
  String.mk ((trimChars c.toList).map (fun ch =>
    let l := ch.toLower
    if l = ' ' then '_' else l))

/-- The synonym table of `load_data` (lines 61-69), in source order. -/
def synonyms : List (String × List String) :=
  [("name", ["name", "destination", "place", "title", "location"]),
   ("state", ["state", "region", "province"]),
   ("description", ["description", "desc", "details", "about"]),
   ("popular_attractions",
      ["popular_attractions", "attractions", "popular_attraction", "attraction"]),
   ("image_url",
      ["image_url", "image", "image_link", "imageurl", "photo", "photo_url"]),
   ("latitude", ["latitude", "lat"]),
   ("longitude", ["longitude", "lon", "long", "lng"])]

/-- `required_columns` (line 85). -/
def requiredColumns : List String :=
  ["name", "state", "description", "popular_attractions", "image_url"]

/-- The inner loop of lines 73-77: the first synonym of `opts` present
among the columns `cols` (the `break` makes it a first match). -/
def foundSyn (cols : List String) (opts : List String) : Option String :=
  opts.find? (fun o => cols.contains o)

/-- The effect of the rename of lines 80-82 on one column name `h`:
if `h` is the column some canonical field was bound to, it becomes that
canonical name, otherwise it is unchanged. -/
def renameHeader (cols : List String) (h : String) : String :=
  match synonyms.find? (fun p => foundSyn cols p.2 == some h) with
  | some p => p.1
  | none => h

/-- The column names of the dataframe after slugging (line 57-58) and
synonym renaming (lines 71-82). -/
def renamedHeaders (t : RawTable) : List String :=
  let norm := t.headers.map slugify
  norm.map (renameHeader norm)

/-- `missing` (line 86): required columns absent from the renamed
dataframe, in the order of `required_columns`. -/
def missingOf (t : RawTable) : List String :=
  requiredColumns.filter (fun c => !((renamedHeaders t).contains c))

/-- Index of a column name in the header list (first occurrence, as
pandas label lookup). -/
def colIdx (headers : List String) (h : String) : Option Nat :=
  headers.findIdx? (fun x => x == h)

/-- The cell of row `r` in column `h` (pandas `row[h]`); `none` when the
column is absent or the cell is `NaN`. -/
def getCell (headers : List String) (r : Row) (h : String) : Option Cell :=
  match colIdx headers h with
  | some i => r.getD i none
  | none => none

/-- Lift a raw CSV row to a row of the normalized table (every present
field starts as a string). -/
def strRow (r : List (Option String)) : Row :=
  r.map (Option.map Cell.str)

/-- `pd.notnull` on a cell. -/
def notnullB : Option Cell → Bool
  | none => false
  | some _ => true

/-- The `dropna(subset=['name', 'state'])` predicate of line 98: the row
is kept iff both cells are non-null. -/
def keepRow (headers : List String) (r : Row) : Bool :=
  notnullB (getCell headers r "name") && notnullB (getCell headers r "state")

/-- Read a run of decimal digits: accumulated value, digit count, rest. -/
def takeDigits (acc : Nat) (n : Nat) : List Char → Nat × Nat × List Char
  | [] => (acc, n, [])
  | c :: cs =>
      if c.isDigit then takeDigits (acc * 10 + (c.toNat - 48)) (n + 1) cs
      else (acc, n, c :: cs)

/-- Strip trailing factors of 10 from `n / 10 ^ e`, putting the decimal
in canonical form. -/
def reduceDec (n : Int) : Nat → DecNum
  | 0 => ⟨n, 0⟩
  | e + 1 => if n % 10 == 0 then reduceDec (n / 10) e else ⟨n, e + 1⟩

/-- Numeric coercion of one string (`pd.to_numeric` on a string cell):
optional surrounding whitespace, optional sign, decimal digits with an
optional fractional part; anything else fails. -/
def parseNum (s : String) : Option DecNum :=
  let cs := trimChars s.toList
  let (sign, cs1) : Int × List Char :=
    match cs with
    | '-' :: r => (-1, r)
    | '+' :: r => (1, r)
    | r => (1, r)
  let (ip, ni, cs2) := takeDigits 0 0 cs1
  match cs2 with
  | [] => if ni = 0 then none else some ⟨sign * ip, 0⟩
  | '.' :: cs3 =>
      let (fp, nf, cs4) := takeDigits 0 0 cs3
      if cs4.isEmpty && decide (0 < ni + nf) then
        some (reduceDec (sign * (ip * 10 ^ nf + fp)) nf)
      else none
  | _ => none

/-- `pd.to_numeric(x, errors='coerce')` on one cell: a string that fails
to parse becomes `NaN`; a parsed string becomes its number; `NaN` stays
`NaN`; an already numeric value is unchanged. -/
def coerceCell : Option Cell → Option Cell
  | some (Cell.str s) => (parseNum s).map Cell.num
  | some (Cell.num q) => some (Cell.num q)
  | none => none

/-- The column assignment `df[coord] = pd.to_numeric(df[coord], ...)`
restricted to one row: replace the cell at column `h` by its coercion
(no-op when the column is absent, per the `if coord in df.columns`
guard of line 102). -/
def setNumCol (headers : List String) (h : String) (r : Row) : Row :=
  match colIdx headers h with
  | some i => r.set i (coerceCell (r.getD i none))
  | none => r

/-- The rows surviving `dropna` (line 98), before coordinate coercion. -/
def keptRows (t : RawTable) : List Row :=
  (t.rows.map strRow).filter (keepRow (renamedHeaders t))

/-- `load_data` (lines 42-105): slug the headers, bind synonyms and
rename, fail with the missing and available columns if a required column
is unbound, drop rows with null `name`/`state`, coerce the coordinate
columns. -/
def loadData (t : RawTable) : Except LoadError Table :=
  let hdrs := renamedHeaders t
  if (missingOf t).isEmpty then
    let rows1 := keptRows t
    let rows2 := (rows1.map (setNumCol hdrs "latitude")).map (setNumCol hdrs "longitude")
    Except.ok ⟨hdrs, rows2⟩
  else
    Except.error (LoadError.MissingColumns (missingOf t) hdrs)

end Tourist

deriving instance DecidableEq for Except

namespace Tourist

/-- Scenario A input: the parsed CSV with header row
`Destination,Region,About,Attraction,Photo,Lat,Lng` and its single data
row. -/
def scenarioARaw : RawTable :=
  { headers := ["Destination", "Region", "About", "Attraction", "Photo", "Lat", "Lng"],
    rows := [[some "Taj Mahal", some "Uttar Pradesh", some "Iconic mausoleum",
              some "Taj Mahal;sunrise view", some "http://x/img.jpg",
              some "27.1751", some "78.0421"]] }

/-- Scenario A expected output table. -/
def scenarioATable : Table :=
  { headers := ["name", "state", "description", "popular_attractions",
                "image_url", "latitude", "longitude"],
    rows := [[some (Cell.str "Taj Mahal"), some (Cell.str "Uttar Pradesh"),
              some (Cell.str "Iconic mausoleum"),
              some (Cell.str "Taj Mahal;sunrise view"),
              some (Cell.str "http://x/img.jpg"),
              some (Cell.num ⟨271751, 4⟩),
              some (Cell.num ⟨780421, 4⟩)]] }


/-! ### The filter logic of `main` (lines 130-147)

`pd.Series.str.contains(pat, case=False, na=False)` interprets `pat` as a
regular expression (its `regex` parameter defaults to `True`) matched
case-insensitively anywhere in the value.  The embedding models the
fragment of that semantics exercised here: a pattern is a sequence of
characters in which `.` matches any character except a newline and every
other character matches itself up to case.  Theorems quantifying over
queries are restricted to patterns built from this fragment (and the
spec-level comparisons to patterns with no metacharacters at all), so the
unmodelled regex constructs never matter. -/

/-- One pattern character against one subject character: `.` is the regex
wildcard (it does not match a newline); any other character matches
itself case-insensitively (`re.IGNORECASE`). -/
def regexCharMatch (p c : Char) : Bool :=
  (p == '.' && !(c == '\n')) || p.toLower == c.toLower

/-- Match the whole pattern against a prefix of the subject. -/
def searchAt : List Char → List Char → Bool
  | [], _ => true
  | _ :: _, [] => false
  | p :: ps, c :: cs => regexCharMatch p c && searchAt ps cs

/-- Match the pattern anywhere in the subject (`re.search`). -/
def regexSearch (ps : List Char) : List Char → Bool
  | [] => searchAt ps []
  | c :: cs => searchAt ps (c :: cs) || regexSearch ps cs

/-- `value.str.contains(pat, case=False, regex=True)` on one string. -/
def strContains (pat s : String) : Bool :=
  regexSearch pat.toList s.toList

/-- `Series.str.contains(pat, case=False, na=False)` on one cell:
a null cell yields `False` (`na=False`), and so does a numeric cell
(whose `.str` accessor value is `NaN`). -/
def cellContains (pat : String) : Option Cell → Bool
  | some (Cell.str s) => strContains pat s
  | _ => false

/-- The search mask of lines 141-143 (with the missing line continuation
of the source repaired): the query matches the row if it matches `name`,
`description` or `popular_attractions`. -/
def rowMatchesQuery (headers : List String) (q : String) (r : Row) : Bool :=
  cellContains q (getCell headers r "name") ||
  cellContains q (getCell headers r "description") ||
  cellContains q (getCell headers r "popular_attractions")

/-- The state mask of line 147: `filtered_df['state'] == selected_state`
(a null state compares unequal, as pandas `NaN == x` is `False`). -/
def rowMatchesState (headers : List String) (selectedState : String) (r : Row) : Bool :=
  getCell headers r "state" == some (Cell.str selectedState)

/-- Lines 137-147 of `main`: apply the text filter when the query is
non-empty (`if search_query:`), then the state filter when the selection
is not the sentinel `'All'`. -/
def filterRows (t : Table) (q selectedState : String) : List Row :=
  let rows1 := if q ≠ "" then t.rows.filter (rowMatchesQuery t.headers q) else t.rows
  if selectedState ≠ "All" then rows1.filter (rowMatchesState t.headers selectedState) else rows1

/-- The map-marker selection of lines 164-165: rows of the table whose
`latitude` and `longitude` are both non-null (`pd.notnull`). -/
def mapMarkerRows (t : Table) : List Row :=
  t.rows.filter (fun r =>
    notnullB (getCell t.headers r "latitude") && notnullB (getCell t.headers r "longitude"))

/-! ### Spec-side definitions (for comparison with the code) -/

/-- Spec-side: `p` is a prefix of `s` (character lists). -/
def isStartOf : List Char → List Char → Bool
  | [], _ => true
  | _ :: _, [] => false
  | a :: as, b :: bs => a == b && isStartOf as bs

/-- Spec-side: `p` occurs contiguously somewhere within `s`. -/
def occursWithin (p : List Char) : List Char → Bool
  | [] => isStartOf p []
  | c :: cs => isStartOf p (c :: cs) || occursWithin p cs

/-- Spec-side, from the spec's words: "case-insensitive substring
match" — the query is a substring of the value after lowercasing both. -/
def substrCI (q s : String) : Bool :=
  occursWithin (q.toList.map Char.toLower) (s.toList.map Char.toLower)

/-- A query free of Python regex metacharacters (`. ^ $ * + ? { } [ ] ( ) | \`).
For such queries regex search degenerates to substring search. -/
def plainQuery (q : String) : Bool :=
  q.toList.all (fun c =>
    !(c == '.' || c == '^' || c == '$' || c == '*' || c == '+' || c == '?' ||
      c == '[' || c == ']' || c == '(' || c == ')' || c == '|' || c == '\\' ||
      c.toNat == 123 || c.toNat == 125))


/-- Spec-side: the canonical column set of §3 of the spec. -/
def canonicalSchema : List String :=
  ["name", "state", "description", "popular_attractions", "image_url",
   "latitude", "longitude"]

/-- Spec-side: the spec's text-match predicate on one cell — the query is
a case-insensitive substring of the value; null (and non-string) cells
never match. -/
def cellSubstrCI (q : String) : Option Cell → Bool
  | some (Cell.str s) => substrCI q s
  | _ => false

/-! ## Helper lemmas -/

/-- If `x` is the only element of `l` satisfying `P`, `find?` returns it. -/
theorem find_eq_of_mem_unique {α : Type} (P : α → Bool) (l : List α) (x : α)
    (hx : x ∈ l) (hPx : P x = true) (huniq : ∀ y ∈ l, P y = true → y = x) :
    l.find? P = some x := by
  induction l with
  | nil => cases hx
  | cons a l ih =>
      by_cases ha : P a = true
      · have hax : a = x := huniq a (List.mem_cons_self a l) ha
        subst hax
        exact List.find?_cons_of_pos _ ha
      · have hxl : x ∈ l := by
          rcases List.mem_cons.mp hx with hcase | hcase
          · exact absurd (hcase ▸ hPx) ha
          · exact hcase
        rw [List.find?_cons_of_neg _ (by simpa using ha)]
        exact ih hxl (fun y hy hPy => huniq y (List.mem_cons_of_mem _ hy) hPy)

/-- Distinct entries of the synonym table share no synonym spelling. -/
theorem synonyms_disjoint :
    ∀ p ∈ synonyms, ∀ q ∈ synonyms, ¬(p = q) → ∀ x ∈ p.2, ¬(x ∈ q.2) := by decide

/-- The canonical name determines the synonym-table entry. -/
theorem synonyms_fst_inj :
    ∀ p ∈ synonyms, ∀ q ∈ synonyms, p.1 = q.1 → p = q := by decide

/-- Every canonical field heads its own synonym list. -/
theorem synonyms_head_self : ∀ p ∈ synonyms, p.2.head? = some p.1 := by decide

/-- `foundSyn` returns the first synonym present among the columns. -/
theorem foundSyn_first (cols pre post : List String) (s : String)
    (hpre : ∀ x ∈ pre, ¬(x ∈ cols)) (hs : s ∈ cols) :
    foundSyn cols (pre ++ s :: post) = some s := by
  induction pre with
  | nil =>
      exact List.find?_cons_of_pos _ (by simpa [List.elem_iff] using hs)
  | cons a pre ih =>
      rw [List.cons_append]
      rw [show foundSyn cols (a :: (pre ++ s :: post)) =
            List.find? (fun o => cols.contains o) (a :: (pre ++ s :: post)) from rfl]
      rw [List.find?_cons_of_neg _ (by
        simpa [List.elem_iff] using hpre a (List.mem_cons_self a pre))]
      exact ih (fun x hx => hpre x (List.mem_cons_of_mem _ hx))

/-- The heart of the synonym binding: when the entry `(c, opts)` of the
synonym table bound to source column `s`, a column `h` of the dataframe is
renamed to `c` exactly when `h` is that bound column `s`. -/
theorem renameHeader_eq_iff (cols : List String) (c s : String) (opts : List String)
    (hmem : (c, opts) ∈ synonyms) (hfound : foundSyn cols opts = some s)
    (h : String) (hh : h ∈ cols) :
    renameHeader cols h = c ↔ h = s := by
  have hs_opts : s ∈ opts := List.mem_of_find?_eq_some hfound
  constructor
  · intro hr
    rcases hfind : synonyms.find? (fun p => foundSyn cols p.2 == some h) with _ | p
    · rw [renameHeader, hfind] at hr
      have hr' : h = c := hr
      have hhead := synonyms_head_self (c, opts) hmem
      rcases hopts : opts with _ | ⟨o, rest⟩
      · rw [hopts] at hhead; simp at hhead
      · rw [hopts] at hhead
        have ho : o = c := by simpa using hhead
        rw [hopts, ho] at hfound
        have hcc : foundSyn cols (c :: rest) = some c :=
          List.find?_cons_of_pos _ (by simpa [List.elem_iff] using hr' ▸ hh)
        rw [hcc] at hfound
        rw [hr']
        exact Option.some.inj hfound
    · rw [renameHeader, hfind] at hr
      have hr' : p.1 = c := hr
      have hpmem := List.mem_of_find?_eq_some hfind
      have hp := List.find?_some hfind
      have hpc : p = (c, opts) := synonyms_fst_inj p hpmem (c, opts) hmem hr'
      rw [hpc] at hp
      have hthis : foundSyn cols opts = some h := by simpa using hp
      rw [hfound] at hthis
      exact (Option.some.inj hthis).symm
  · intro hhs
    subst hhs
    rw [renameHeader,
      find_eq_of_mem_unique _ _ (c, opts) hmem (by simp [hfound]) ?_]
    intro y hy hPy
    have hyfound : foundSyn cols y.2 = some h := by simpa using hPy
    have hhy : h ∈ y.2 := List.mem_of_find?_eq_some hyfound
    by_contra hne
    exact synonyms_disjoint y hy (c, opts) hmem (fun e => hne (by rw [e])) h hhy hs_opts

/-! ## Claims -/

/-- **C1** (header synonym resolution): Scenario A — the CSV with header
row `Destination,Region,About,Attraction,Photo,Lat,Lng` and the single
data row loads to one record with Destination bound to name, Region to
state, About to description, Attraction to popular_attractions, Photo to
image_url, Lat to latitude, Lng to longitude, the latitude being the
number 27.1751; and in general, whenever the first synonym of a canonical
field `c` present among the (slugged) columns is `s`, a column is renamed
to `c` exactly when it is `s` — the first synonym in the listed priority
order wins. -/
theorem c1_synonym_binding :
    loadData scenarioARaw = Except.ok scenarioATable ∧
    ∀ (cols pre post : List String) (c s : String) (opts : List String),
      (c, opts) ∈ synonyms → opts = pre ++ s :: post →
      (∀ x ∈ pre, ¬(x ∈ cols)) → s ∈ cols →
      ∀ h ∈ cols, (renameHeader cols h = c ↔ h = s) := by
  refine ⟨by decide, ?_⟩
  intro cols pre post c s opts hmem hopts hpre hs h hh
  exact renameHeader_eq_iff cols c s opts hmem
    (hopts ▸ foundSyn_first cols pre post s hpre hs) h hh

/-- Witness for C1: in a file whose (slugged) headers are
`region, province`, the header `region` — the first present synonym of
`state` — is renamed to `state`. -/
theorem c1_synonym_binding_witness :
    ("state", ["state", "region", "province"]) ∈ synonyms ∧
      renameHeader ["region", "province"] "region" = "state" :=
  ⟨by decide,
    (c1_synonym_binding.2 ["region", "province"] ["state"] ["province"]
      "state" "region" ["state", "region", "province"]
      (by decide) rfl (by decide) (by decide) "region" (by decide)).mpr rfl⟩

/-- **C5** (filter composition): for every table, query and region, a row
is in the combined filter result exactly when it is both in the
text-only result (region sentinel `All`) and in the region-only result
(empty query): the two filters compose by logical AND. -/
theorem c5_filter_composition :
    ∀ (T : Table) (q region : String) (r : Row),
      r ∈ filterRows T q region ↔
        r ∈ filterRows T q "All" ∧ r ∈ filterRows T "" region := by
  intro T q region r
  by_cases hq : q = "" <;> by_cases hreg : region = "All" <;>
    simp [filterRows, hq, hreg, List.mem_filter] <;> tauto

/-- **C9** (order preservation): the filtered result is a sublist
(subsequence) of the table's rows — filtering never reorders and never
introduces duplicates. -/
theorem c9_filter_sublist :
    ∀ (T : Table) (q region : String),
      List.Sublist (filterRows T q region) T.rows := by
  intro T q region
  have h1 : List.Sublist
      (if q ≠ "" then T.rows.filter (rowMatchesQuery T.headers q) else T.rows)
      T.rows := by
    split
    · exact List.filter_sublist _
    · exact List.Sublist.refl _
  show List.Sublist
    (if region ≠ "All" then
        (if q ≠ "" then T.rows.filter (rowMatchesQuery T.headers q) else T.rows).filter
          (rowMatchesState T.headers region)
      else if q ≠ "" then T.rows.filter (rowMatchesQuery T.headers q) else T.rows)
    T.rows
  split
  · exact List.Sublist.trans (List.filter_sublist _) h1
  · exact h1

/-- **C10** (neutral filters): the empty query together with the region
sentinel `All` returns the table's rows unchanged. -/
theorem c10_neutral_filters :
    ∀ T : Table, filterRows T "" "All" = T.rows := by
  intro T
  simp [filterRows]

/-- Characterization of a successful load: it happens exactly when no
required column is missing, and the result is the renamed headers with
the kept rows, their coordinate columns coerced. -/
theorem loadData_ok_iff (t : RawTable) (T : Table) :
    loadData t = Except.ok T ↔
      missingOf t = [] ∧
      T = ⟨renamedHeaders t,
           ((keptRows t).map (setNumCol (renamedHeaders t) "latitude")).map
             (setNumCol (renamedHeaders t) "longitude")⟩ := by
  unfold loadData
  by_cases hm : (missingOf t).isEmpty
  · simp [hm, List.isEmpty_iff.mp hm, eq_comm]
  · simp only [hm]
    simp only [Bool.false_eq_true, if_false]
    constructor
    · intro h; cases h
    · rintro ⟨h1, -⟩
      exact absurd (List.isEmpty_iff.mpr h1) hm

/-- `colIdx` returns an index holding the looked-up header. -/
theorem colIdx_getElem (hs : List String) (h : String) (i : Nat)
    (hc : colIdx hs h = some i) : hs[i]? = some h := by
  induction hs generalizing i with
  | nil => simp [colIdx] at hc
  | cons a l ih =>
      rw [colIdx, List.findIdx?_cons] at hc
      by_cases ha : a == h
      · have : a = h := by simpa using ha
        simp [ha] at hc
        simp [← hc, this]
      · simp [ha] at hc
        rcases hc with ⟨j, hj, hij⟩
        subst hij
        simpa using ih j hj

/-- Two distinct column names never share a `colIdx` index. -/
theorem colIdx_inj (hs : List String) (h h' : String) (i : Nat)
    (h1 : colIdx hs h = some i) (h2 : colIdx hs h' = some i) : h = h' := by
  have e1 := colIdx_getElem hs h i h1
  have e2 := colIdx_getElem hs h' i h2
  rw [e1] at e2
  exact Option.some.inj e2

/-- Reading the column a `setNumCol` wrote gives the coerced cell. -/
theorem getCell_setNumCol_self (hs : List String) (h : String) (r : Row) :
    getCell hs (setNumCol hs h r) h = coerceCell (getCell hs r h) := by
  unfold getCell setNumCol
  rcases hc : colIdx hs h with _ | i
  · rfl
  · by_cases hi : i < r.length
    · simp [List.getD_eq_getElem?_getD, List.getElem?_set_self hi,
        List.getElem?_eq_getElem hi]
    · have hnone : r[i]? = none := by
        simpa using List.getElem?_eq_none (le_of_not_lt hi)
      have hset : i ≥ r.length := le_of_not_lt hi
      simp [List.getD_eq_getElem?_getD, hnone, List.set_eq_of_length_le hset]
      rfl

/-- `setNumCol` leaves every other column unchanged. -/
theorem getCell_setNumCol_ne (hs : List String) (h h' : String) (r : Row)
    (hne : ¬(h = h')) :
    getCell hs (setNumCol hs h' r) h = getCell hs r h := by
  unfold getCell setNumCol
  rcases hc' : colIdx hs h' with _ | j
  · rfl
  · rcases hc : colIdx hs h with _ | i
    · rfl
    · have hij : ¬(j = i) := fun e => hne (colIdx_inj hs h h' i hc (e ▸ hc'))
      simp [List.getD_eq_getElem?_getD, List.getElem?_set_ne hij]

/-- Every row of a successfully loaded table is the coordinate-coercion
of a row that survived the `dropna` step. -/
theorem loaded_row_shape (t : RawTable) (T : Table) (hT : loadData t = Except.ok T)
    (r : Row) (hr : r ∈ T.rows) :
    ∃ r₀, r₀ ∈ keptRows t ∧
      r = setNumCol (renamedHeaders t) "longitude"
            (setNumCol (renamedHeaders t) "latitude" r₀) := by
  rcases (loadData_ok_iff t T).mp hT with ⟨-, hTe⟩
  subst hTe
  simp only [List.map_map, List.mem_map, Function.comp] at hr
  rcases hr with ⟨r₀, hr₀, hre⟩
  exact ⟨r₀, hr₀, hre.symm⟩

/-- **C2** (corrected): a load fails — with the structured
`MissingColumns` diagnostic and no other way — exactly when some required
canonical field is unbound after synonym renaming; the failure carries
exactly the required fields absent from the renamed column list, in the
fixed `required_columns` order, together with the *renamed* column list
(canonical names for bound columns, slugs for unbound ones), which is
what line 92 of the source interpolates, not the originally-parsed header
slugs. -/
theorem c2_missing_columns :
    ∀ (t : RawTable) (m a : List String),
      loadData t = Except.error (LoadError.MissingColumns m a) ↔
        (a = renamedHeaders t ∧
         m = requiredColumns.filter (fun c => !(a.contains c)) ∧
         ¬(m = [])) := by
  intro t m a
  unfold loadData
  by_cases hm : (missingOf t).isEmpty
  · simp only [hm, if_true]
    constructor
    · intro h; cases h
    · rintro ⟨ha, hmm, hne⟩
      subst ha
      rw [show requiredColumns.filter (fun c => !((renamedHeaders t).contains c)) =
            missingOf t from rfl] at hmm
      subst hmm
      exact absurd (List.isEmpty_iff.mp hm) hne
  · simp only [hm, Bool.false_eq_true, if_false]
    constructor
    · intro h
      injection h with h
      injection h with h1 h2
      subst h1; subst h2
      exact ⟨rfl, rfl, fun e => hm (List.isEmpty_iff.mpr e)⟩
    · rintro ⟨ha, hmm, -⟩
      subst ha; subst hmm
      rfl

/-- Witness for C2: Scenario B-like input — a CSV whose headers slug to
`destination, region` binds name and state but no other required field;
the failure lists the three absent fields and reports the renamed
columns. -/
theorem c2_missing_columns_witness :
    loadData ⟨["Destination", "Region"], []⟩ =
      Except.error (LoadError.MissingColumns
        ["description", "popular_attractions", "image_url"] ["name", "state"]) :=
  (c2_missing_columns ⟨["Destination", "Region"], []⟩
    ["description", "popular_attractions", "image_url"] ["name", "state"]).mpr
    ⟨by decide, by decide, by decide⟩

/-- Counterexample for C2 as stated: the claim requires the failure to
report "the list of all header slugs actually found in the file", but for
the file with headers `Destination, Region` (slugs
`destination, region`) the code reports the post-rename columns
`name, state`, which differ from the slugs actually found. -/
theorem c2_missing_columns_counterexample :
    loadData ⟨["Destination", "Region"], []⟩ =
      Except.error (LoadError.MissingColumns
        ["description", "popular_attractions", "image_url"] ["name", "state"]) ∧
    (⟨["Destination", "Region"], []⟩ : RawTable).headers.map slugify =
      ["destination", "region"] ∧
    ¬((["name", "state"] : List String) = ["destination", "region"]) := by
  refine ⟨by decide, by decide, by decide⟩

/-- **C3** (amended): the rows of a successfully loaded table are exactly
the raw rows whose `name` and `state` cells are non-null — in original
order, with only the coordinate columns rewritten — and consequently
every surviving row has non-null `name` and `state`.  (Null means a
missing value; a whitespace-only cell is non-null and is *not*
dropped — `dropna` does not trim.) -/
theorem c3_row_dropping :
    ∀ (t : RawTable) (T : Table), loadData t = Except.ok T →
      T.rows = ((t.rows.map strRow).filter (keepRow T.headers)).map
          (fun r => setNumCol T.headers "longitude"
            (setNumCol T.headers "latitude" r)) ∧
      ∀ r ∈ T.rows,
        notnullB (getCell T.headers r "name") = true ∧
        notnullB (getCell T.headers r "state") = true := by
  intro t T hT
  have hhd : T.headers = renamedHeaders t := by
    rcases (loadData_ok_iff t T).mp hT with ⟨-, hTe⟩
    rw [hTe]
  constructor
  · rcases (loadData_ok_iff t T).mp hT with ⟨-, hTe⟩
    rw [hTe]
    simp [keptRows, List.map_map]
  · intro r hr
    rcases loaded_row_shape t T hT r hr with ⟨r₀, hr₀, hre⟩
    have hk : keepRow (renamedHeaders t) r₀ = true :=
      (List.mem_filter.mp hr₀).2
    have hkn := (Bool.and_eq_true _ _).mp hk
    rw [hhd, hre,
      getCell_setNumCol_ne _ "name" "longitude" _ (by decide),
      getCell_setNumCol_ne _ "name" "latitude" _ (by decide)]
    refine ⟨hkn.1, ?_⟩
    rw [getCell_setNumCol_ne _ "state" "longitude" _ (by decide),
      getCell_setNumCol_ne _ "state" "latitude" _ (by decide)]
    exact hkn.2

/-- C3 witness input: a required-complete CSV with a whitespace-only
name in row 1 and a null state in row 2. -/
def c3raw : RawTable :=
  { headers := ["name", "state", "description", "popular_attractions", "image_url"],
    rows := [[some "  ", some "S", some "d", some "a", some "u"],
             [some "B", none, some "d", some "a", some "u"]] }

/-- C3 witness output: row 2 (null state) is dropped; row 1 survives. -/
def c3table : Table :=
  { headers := ["name", "state", "description", "popular_attractions", "image_url"],
    rows := [[some (Cell.str "  "), some (Cell.str "S"), some (Cell.str "d"),
              some (Cell.str "a"), some (Cell.str "u")]] }

/-- Witness for C3: on `c3raw` the null-state row is absent and the
surviving row has non-null name and state. -/
theorem c3_row_dropping_witness :
    loadData c3raw = Except.ok c3table ∧
      (notnullB (getCell c3table.headers (c3table.rows.getD 0 []) "name") = true ∧
       notnullB (getCell c3table.headers (c3table.rows.getD 0 []) "state") = true) :=
  ⟨by decide,
    (c3_row_dropping c3raw c3table (by decide)).2 (c3table.rows.getD 0 []) (by decide)⟩

/-- Counterexample for C3 as stated: the claim says a row whose name cell
contains only whitespace is dropped, but `dropna` drops only null cells:
the row with name `"  "` is present in the loaded table. -/
theorem c3_row_dropping_counterexample :
    loadData c3raw = Except.ok c3table ∧
    getCell c3table.headers (c3table.rows.getD 0 []) "name" =
      some (Cell.str "  ") ∧
    (trimChars "  ".toList = [] ∧ c3table.rows.length = 1) := by
  refine ⟨by decide, by decide, by decide, by decide⟩

/-- **C7** (amended): a successfully loaded table's columns are the
slugged original headers with each bound synonym renamed to its canonical
field; the five required canonical columns are always present, but
`latitude`/`longitude` need not be, and unbound non-canonical headers
survive. -/
theorem c7_column_set :
    ∀ (t : RawTable) (T : Table), loadData t = Except.ok T →
      T.headers = (t.headers.map slugify).map (renameHeader (t.headers.map slugify)) ∧
      ∀ c ∈ requiredColumns, c ∈ T.headers := by
  intro t T hT
  rcases (loadData_ok_iff t T).mp hT with ⟨hmiss, hTe⟩
  have hhd : T.headers = renamedHeaders t := by rw [hTe]
  constructor
  · rw [hhd]; rfl
  · intro c hc
    have := List.filter_eq_nil_iff.mp hmiss c hc
    rw [hhd]
    have hcontains : (renamedHeaders t).contains c = true := by
      by_contra hcon
      exact this (by simpa using hcon)
    exact List.elem_iff.mp hcontains

/-- C7 witness/counterexample input: all five required headers plus an
unknown column `foo`. -/
def c7raw : RawTable :=
  { headers := ["name", "state", "description", "popular_attractions",
                "image_url", "foo"],
    rows := [] }

/-- Witness for C7: the loaded headers of `c7raw` contain the required
canonical column `name`. -/
theorem c7_column_set_witness :
    loadData c7raw =
      Except.ok ⟨["name", "state", "description", "popular_attractions",
                  "image_url", "foo"], []⟩ ∧
    "name" ∈ (⟨["name", "state", "description", "popular_attractions",
                "image_url", "foo"], []⟩ : Table).headers :=
  ⟨by decide,
    (c7_column_set c7raw _ (by decide)).2 "name" (by decide)⟩

/-- Counterexample for C7 as stated: the claim says the loaded column set
is exactly the seven-element canonical schema and no original header
survives, but loading `c7raw` keeps the non-canonical header `foo` and
has no `latitude`/`longitude` column at all. -/
theorem c7_column_set_counterexample :
    loadData c7raw =
      Except.ok ⟨["name", "state", "description", "popular_attractions",
                  "image_url", "foo"], []⟩ ∧
    "foo" ∈ (["name", "state", "description", "popular_attractions",
              "image_url", "foo"] : List String) ∧
    ¬("foo" ∈ canonicalSchema) ∧
    ¬("latitude" ∈ (["name", "state", "description", "popular_attractions",
                     "image_url", "foo"] : List String)) ∧
    "latitude" ∈ canonicalSchema := by
  refine ⟨by decide, by decide, by decide, by decide, by decide⟩

/-- `getD` through `map` at an in-range index. -/
theorem getD_map_lt {α β : Type} (f : α → β) (l : List α) (k : Nat) (d : α) (d' : β)
    (hk : k < l.length) : (l.map f).getD k d' = f (l.getD k d) := by
  simp [List.getD_eq_getElem?_getD, List.getElem?_map, List.getElem?_eq_getElem hk]

/-- **C4** (coordinate coercion): when a load succeeds and a coordinate
column is bound, the output has exactly the kept rows (each row
retained), the coordinate cell of each output row is the coercion of the
corresponding kept cell — a failing parse becomes null, a successful one
the parsed number — and success of the load never depends on the cell
contents: any raw table with the same headers also loads. -/
theorem c4_coordinate_coercion :
    ∀ (t : RawTable) (T : Table) (coord : String) (i : Nat),
      loadData t = Except.ok T →
      coord ∈ (["latitude", "longitude"] : List String) →
      colIdx T.headers coord = some i →
      (T.rows.length = (keptRows t).length ∧
       ∀ k, k < T.rows.length →
         getCell T.headers (T.rows.getD k []) coord =
           coerceCell (getCell T.headers ((keptRows t).getD k []) coord)) ∧
      (∀ t' : RawTable, t'.headers = t.headers →
        ∃ T', loadData t' = Except.ok T') := by
  intro t T coord i hT hcoord hidx
  rcases (loadData_ok_iff t T).mp hT with ⟨hmiss, hTe⟩
  have hhd : T.headers = renamedHeaders t := by rw [hTe]
  refine ⟨⟨by rw [hTe]; simp, ?_⟩, ?_⟩
  · intro k hk
    have hklen : k < (keptRows t).length := by
      rw [hTe] at hk; simpa using hk
    have hrow : T.rows.getD k [] =
        setNumCol (renamedHeaders t) "longitude"
          (setNumCol (renamedHeaders t) "latitude" ((keptRows t).getD k [])) := by
      rw [hTe]
      show (((keptRows t).map _).map _).getD k [] = _
      rw [getD_map_lt _ _ k [] [] (by simpa using hklen),
          getD_map_lt _ _ k [] [] hklen]
    rw [hrow, hhd]
    simp only [List.mem_cons, List.mem_singleton] at hcoord
    rcases hcoord with hcl | hcl | hcl
    · subst hcl
      rw [getCell_setNumCol_ne _ "latitude" "longitude" _ (by decide),
          getCell_setNumCol_self]
    · subst hcl
      rw [getCell_setNumCol_self,
          getCell_setNumCol_ne _ "longitude" "latitude" _ (by decide)]
    · cases hcl
  · intro t' ht'
    have hre : renamedHeaders t' = renamedHeaders t := by
      unfold renamedHeaders; rw [ht']
    have hmiss' : missingOf t' = [] := by
      unfold missingOf; rw [hre]; exact hmiss
    exact ⟨_, (loadData_ok_iff t' _).mpr ⟨hmiss', rfl⟩⟩

/-- C4/C8 input: all required columns plus coordinates, with one
unparseable coordinate each way around. -/
def c4raw : RawTable :=
  { headers := ["name", "state", "description", "popular_attractions",
                "image_url", "latitude", "longitude"],
    rows := [[some "A", some "S", some "d", some "a", some "u",
              some "abc", some "78.0"]] }

/-- C4 output: the unparseable latitude became null, the longitude the
number 78, the row retained. -/
def c4table : Table :=
  { headers := ["name", "state", "description", "popular_attractions",
                "image_url", "latitude", "longitude"],
    rows := [[some (Cell.str "A"), some (Cell.str "S"), some (Cell.str "d"),
              some (Cell.str "a"), some (Cell.str "u"),
              none, some (Cell.num ⟨78, 0⟩)]] }

/-- Witness for C4: on `c4raw` (latitude cell `"abc"`) the load succeeds,
the row is retained, and its latitude cell is the coercion of the raw
cell, namely null. -/
theorem c4_coordinate_coercion_witness :
    loadData c4raw = Except.ok c4table ∧
    getCell c4table.headers (c4table.rows.getD 0 []) "latitude" =
      coerceCell (getCell c4table.headers ((keptRows c4raw).getD 0 []) "latitude") ∧
    getCell c4table.headers (c4table.rows.getD 0 []) "latitude" = none :=
  ⟨by decide,
    (c4_coordinate_coercion c4raw c4table "latitude" 5
      (by decide) (by decide) (by decide)).1.2 0 (by decide),
    by decide⟩

/-- Coercion never yields a string cell. -/
theorem coerceCell_ne_str (cell : Option Cell) (s : String) :
    ¬(coerceCell cell = some (Cell.str s)) := by
  cases cell with
  | none => simp [coerceCell]
  | some c =>
      cases c with
      | str s2 =>
          simp only [coerceCell]
          cases parseNum s2 <;> simp
      | num q => simp [coerceCell]

/-- **C8** (amended): in a loaded table each of the `latitude` and
`longitude` cells is independently either null or numeric — never a raw
string — but the two are not linked: a record may have exactly one
numeric coordinate; such a record is retained yet excluded from the map
markers, which require both coordinates non-null. -/
theorem c8_coordinate_pair :
    ∀ (t : RawTable) (T : Table), loadData t = Except.ok T →
      (∀ r ∈ T.rows, ∀ coord ∈ (["latitude", "longitude"] : List String),
        ∀ s : String, ¬(getCell T.headers r coord = some (Cell.str s))) ∧
      (∀ r ∈ T.rows, (r ∈ mapMarkerRows T ↔
        (notnullB (getCell T.headers r "latitude") = true ∧
         notnullB (getCell T.headers r "longitude") = true))) := by
  intro t T hT
  have hhd : T.headers = renamedHeaders t := by
    rcases (loadData_ok_iff t T).mp hT with ⟨-, hTe⟩
    rw [hTe]
  constructor
  · intro r hr coord hcoord s
    rcases loaded_row_shape t T hT r hr with ⟨r₀, hr₀, hre⟩
    subst hre
    rw [hhd]
    simp only [List.mem_cons, List.mem_singleton] at hcoord
    rcases hcoord with hcl | hcl | hcl
    · subst hcl
      rw [getCell_setNumCol_ne _ "latitude" "longitude" _ (by decide),
          getCell_setNumCol_self]
      exact coerceCell_ne_str _ s
    · subst hcl
      rw [getCell_setNumCol_self]
      exact coerceCell_ne_str _ s
    · cases hcl
  · intro r hr
    unfold mapMarkerRows
    simp [List.mem_filter, hr]

/-- C8 input: a parseable latitude next to an unparseable longitude. -/
def c8raw : RawTable :=
  { headers := ["name", "state", "description", "popular_attractions",
                "image_url", "latitude", "longitude"],
    rows := [[some "A", some "S", some "d", some "a", some "u",
              some "27.1", some "abc"]] }

/-- C8 output: latitude numeric, longitude null — exactly one of the
pair. -/
def c8table : Table :=
  { headers := ["name", "state", "description", "popular_attractions",
                "image_url", "latitude", "longitude"],
    rows := [[some (Cell.str "A"), some (Cell.str "S"), some (Cell.str "d"),
              some (Cell.str "a"), some (Cell.str "u"),
              some (Cell.num ⟨271, 1⟩), none]] }

/-- Witness for C8: on `c8raw` the single loaded row satisfies the
map-marker membership characterization (and, both sides being false, is
excluded from markers). -/
theorem c8_coordinate_pair_witness :
    loadData c8raw = Except.ok c8table ∧
    ((c8table.rows.getD 0 []) ∈ mapMarkerRows c8table ↔
      (notnullB (getCell c8table.headers (c8table.rows.getD 0 []) "latitude") = true ∧
       notnullB (getCell c8table.headers (c8table.rows.getD 0 []) "longitude") = true)) :=
  ⟨by decide,
    (c8_coordinate_pair c8raw c8table (by decide)).2 (c8table.rows.getD 0 []) (by decide)⟩

/-- Counterexample for C8 as stated: the claim says no loaded record has
exactly one numeric coordinate, but `c8raw` (latitude `"27.1"`,
longitude `"abc"`) loads to a record with numeric latitude 27.1 and null
longitude. -/
theorem c8_coordinate_pair_counterexample :
    loadData c8raw = Except.ok c8table ∧
    getCell c8table.headers (c8table.rows.getD 0 []) "latitude" =
      some (Cell.num ⟨271, 1⟩) ∧
    getCell c8table.headers (c8table.rows.getD 0 []) "longitude" = none := by
  refine ⟨by decide, by decide, by decide⟩

/-- A metacharacter-free query contains no `.`. -/
theorem plainQuery_no_dot (q : String) (hq : plainQuery q = true) :
    ∀ c ∈ q.toList, (c == '.') = false := by
  intro c hc
  have hall := (List.all_eq_true.mp hq) c hc
  by_cases h : (c == '.') = true
  · rw [h] at hall; simp at hall
  · simpa using h

/-- On dot-free patterns, anchored regex matching is case-folded
prefix comparison. -/
theorem searchAt_plain (ps : List Char) (hp : ∀ c ∈ ps, (c == '.') = false) :
    ∀ cs : List Char,
      searchAt ps cs = isStartOf (ps.map Char.toLower) (cs.map Char.toLower) := by
  induction ps with
  | nil => intro cs; cases cs <;> rfl
  | cons p ps ih =>
      intro cs
      cases cs with
      | nil => rfl
      | cons c cs =>
          have hpd : (p == '.') = false := hp p (List.mem_cons_self p ps)
          show (regexCharMatch p c && searchAt ps cs) = _
          rw [show regexCharMatch p c = ((p == '.' && !(c == '\n')) || p.toLower == c.toLower)
                from rfl,
            hpd]
          simp only [Bool.false_and, Bool.false_or]
          rw [ih (fun x hx => hp x (List.mem_cons_of_mem _ hx)) cs]
          rfl

/-- On dot-free patterns, regex search is case-folded substring search. -/
theorem regexSearch_plain (ps : List Char) (hp : ∀ c ∈ ps, (c == '.') = false) :
    ∀ cs : List Char,
      regexSearch ps cs = occursWithin (ps.map Char.toLower) (cs.map Char.toLower) := by
  intro cs
  induction cs with
  | nil => exact searchAt_plain ps hp []
  | cons c cs ih =>
      show (searchAt ps (c :: cs) || regexSearch ps cs) = _
      rw [searchAt_plain ps hp (c :: cs), ih]
      rfl

/-- On metacharacter-free queries, the code's `str.contains` coincides
with the spec's case-insensitive substring test. -/
theorem strContains_plain (q s : String) (hq : plainQuery q = true) :
    strContains q s = substrCI q s :=
  regexSearch_plain q.toList (plainQuery_no_dot q hq) s.toList

/-- **C6** (amended): for a non-empty query free of regex
metacharacters, a record is in the text-filtered result exactly when the
query is a case-insensitive substring of its `name`, or of its
`description`, or of its `popular_attractions`; null (or numeric) fields
never match and never raise.  (For general queries the code passes the
query to `Series.str.contains`, whose default `regex=True` interprets it
as a regular expression, not a substring — see the counterexample.) -/
theorem c6_text_filter_substring :
    ∀ (T : Table) (q : String) (r : Row), ¬(q = "") → plainQuery q = true →
      (r ∈ filterRows T q "All" ↔
        r ∈ T.rows ∧
          (cellSubstrCI q (getCell T.headers r "name") = true ∨
           cellSubstrCI q (getCell T.headers r "description") = true ∨
           cellSubstrCI q (getCell T.headers r "popular_attractions") = true)) := by
  intro T q r hq hplain
  have hcc : ∀ cell, cellContains q cell = cellSubstrCI q cell := by
    intro cell
    rcases cell with _ | ⟨s⟩ | ⟨n⟩
    · rfl
    · show strContains q s = substrCI q s
      exact strContains_plain q s hplain
    · rfl
  show (r ∈ if q ≠ "" then T.rows.filter (rowMatchesQuery T.headers q) else T.rows) ↔ _
  rw [if_pos hq]
  rw [List.mem_filter]
  unfold rowMatchesQuery
  rw [hcc, hcc, hcc]
  simp [Bool.or_eq_true]
  intro
  tauto

/-- C6 table: one record named Taj Mahal with null description and
attractions. -/
def c6table : Table :=
  { headers := ["name", "state", "description", "popular_attractions",
                "image_url", "latitude", "longitude"],
    rows := [[some (Cell.str "Taj Mahal"), some (Cell.str "Uttar Pradesh"),
              none, none, none, none, none]] }

/-- C6 second table (Scenario C): Taj Mahal and Amber Fort. -/
def c6tableC : Table :=
  { headers := ["name", "state", "description", "popular_attractions",
                "image_url", "latitude", "longitude"],
    rows := [[some (Cell.str "Taj Mahal"), some (Cell.str "Uttar Pradesh"),
              none, none, none, none, none],
             [some (Cell.str "Amber Fort"), some (Cell.str "Rajasthan"),
              none, none, none, none, none]] }

/-- Witness for C6 (Scenario C): the plain query `taj` selects exactly
the Taj Mahal record — it is in the filtered result, by the amended
characterization. -/
theorem c6_text_filter_substring_witness :
    (¬(("taj" : String) = "") ∧ plainQuery "taj" = true) ∧
      ((c6tableC.rows.getD 0 []) ∈ filterRows c6tableC "taj" "All" ∧
       filterRows c6tableC "taj" "All" = [c6tableC.rows.getD 0 []]) :=
  ⟨⟨by decide, by decide⟩,
    (c6_text_filter_substring c6tableC "taj" (c6tableC.rows.getD 0 [])
      (by decide) (by decide)).mpr ⟨by decide, Or.inl (by decide)⟩,
    by decide⟩

/-- Counterexample for C6 as stated: with query `t.j` the Taj Mahal
record is in the text-filtered result (the dot is a regex wildcard
matching the `a`), yet `t.j` is not a case-insensitive substring of
`Taj Mahal` — nor of the null description or attractions — so "in the
result iff the query is a substring of a field" is false. -/
theorem c6_text_filter_substring_counterexample :
    (c6table.rows.getD 0 []) ∈ filterRows c6table "t.j" "All" ∧
    cellSubstrCI "t.j" (getCell c6table.headers (c6table.rows.getD 0 []) "name") = false ∧
    cellSubstrCI "t.j" (getCell c6table.headers (c6table.rows.getD 0 []) "description") = false ∧
    cellSubstrCI "t.j" (getCell c6table.headers (c6table.rows.getD 0 [])
      "popular_attractions") = false := by
  refine ⟨by decide, by decide, by decide, by decide⟩

end Tourist
